import Mathlib

/-!
Verification of the taskwtools repository (src/task.py): the FQL deriver
(`__taskfql`), the synchronization tag deriver (`_timewtags`), the current-task
tracker (`_tasknow`), the start/stop transitions (`_taskdo`, `_taskstop`), the
modification hook (`on_modify_timew` with `retimew`), and the task resolver
(`_taskget`).  Python strings are modelled as Lean `String`s; the single-char
`str.replace`, `str.split` and `str.join` operations used by the source are
modelled on the underlying character lists.
-/

namespace Taskwtools

/-- Python `s.replace(c, d)` for single characters `c`, `d`: replace every
occurrence of `c` in `s` by `d` (source: `prj.replace('.', '/')` and
`taskarg.replace('/', '.')`). -/
def pyReplaceChar (c d : Char) (s : String) : String :=
  ⟨s.data.map (fun x => if x = c then d else x)⟩

/-- Python `s.split(c)` for a single-character separator, on character lists:
`split('/') "a/b" = ["a","b"]`, `split('/') "" = [""]`, adjacent separators
produce empty segments exactly as in Python. -/
def splitChar (c : Char) : List Char → List (List Char)
  | [] => [[]]
  | x :: xs =>
    match splitChar c xs with
    | [] => [[]]
    | y :: ys => if x = c then [] :: y :: ys else (x :: y) :: ys

/-- Python `s.split(c)` on strings. -/
def pySplit (c : Char) (s : String) : List String :=
  (splitChar c s.data).map (fun l => ⟨l⟩)

/-- Python `sep.join(parts)` on character lists. -/
def joinSep (sep : List Char) : List (List Char) → List Char
  | [] => []
  | [x] => x
  | x :: y :: ys => x ++ sep ++ joinSep sep (y :: ys)

/-- Python `sep.join(parts)` on strings. -/
def pyJoin (sep : String) (parts : List String) : String :=
  ⟨joinSep sep.data (parts.map (fun p => p.data))⟩

/-- Substring occurrence scan on character lists: `sub` occurs in `l` at
some position. -/
def infixAt : List Char → List Char → Bool
  | sub, [] => sub.isEmpty
  | sub, c :: cs => sub.isPrefixOf (c :: cs) || infixAt sub cs

/-- Python substring test `sub in s` (used for the task store's `__has`
field queries). -/
def pyIn (sub s : String) : Bool := infixAt sub.data s.data

/-- Python truthiness of an optional string field: `None` and the empty
string are falsy (`if not prj or not label` in `__taskfql`). -/
def falsy : Option String → Bool
  | none => true
  | some s => s = ""

/-- A task record, as the dict-shaped task objects the source manipulates:
`id` (0 once completed), `uuid`, optional `project` and `label`,
`description`, `tags`, and the `start`/`end` timestamps (absent = `none`).
The `end` attribute is called `tend` because `end` is a Lean keyword. -/
structure Task where
  id : Nat
  uuid : String
  project : Option String
  label : Option String
  description : String
  tags : List String
  start : Option String
  tend : Option String
deriving DecidableEq, Repr

/-- Source `__taskfql` (task.py lines 174-179): `None` when the project or
label is absent or falsy, otherwise the project with `.` replaced by `/`,
then `/`, then the label.  (`labelonly` is not modelled; no claim uses it.) -/
def __taskfql (task : Task) : Option String :=
  let prj := task.project
  let label := task.label
  if falsy prj || falsy label then none
  else some (pyReplaceChar '.' '/' (prj.getD "") ++ "/" ++ (label.getD ""))

/-- Source `_timewtags` (task.py lines 205-225), on a task record: the
hierarchical entries `'/'.join(fqlsegs[0:i]) + ('/' if i < nsegs else '')`
for `i = 1 .. nsegs`, followed by one `+tag` entry per task tag. -/
def _timewtags (task : Task) : List String :=
  let fqlsegs : List String :=
    match __taskfql task with
    | some fql => if fql = "" then [] else pySplit '/' fql
    | none => []
  let nsegs := fqlsegs.length
  let hier := (List.range nsegs).map
    (fun i => pyJoin "/" (fqlsegs.take (i + 1)) ++ (if i + 1 < nsegs then "/" else ""))
  hier ++ task.tags.map (fun tg => "+" ++ tg)

/-! ### List-level lemmas about the Python string operations -/

theorem splitChar_cons (c x : Char) (xs : List Char) :
    splitChar c (x :: xs)
      = match splitChar c xs with
        | [] => [[]]
        | y :: ys => if x = c then [] :: y :: ys else (x :: y) :: ys := rfl

theorem splitChar_ne_nil (c : Char) (l : List Char) : splitChar c l ≠ [] := by
  induction l with
  | nil => simp [splitChar]
  | cons x xs ih =>
    cases h : splitChar c xs with
    | nil => exact absurd h ih
    | cons y ys =>
      rw [splitChar_cons, h]
      by_cases hx : x = c <;> simp [hx]

theorem splitChar_append_sep (c : Char) (a b : List Char) :
    splitChar c (a ++ c :: b) = splitChar c a ++ splitChar c b := by
  induction a with
  | nil =>
    show splitChar c (c :: b) = [[]] ++ splitChar c b
    rw [splitChar_cons]
    cases h : splitChar c b with
    | nil => exact absurd h (splitChar_ne_nil c b)
    | cons y ys => simp
  | cons x xs ih =>
    show splitChar c (x :: (xs ++ c :: b)) = splitChar c (x :: xs) ++ splitChar c b
    rw [splitChar_cons, splitChar_cons, ih]
    cases h' : splitChar c xs with
    | nil => exact absurd h' (splitChar_ne_nil c xs)
    | cons y ys =>
      simp only [List.cons_append]
      by_cases hx : x = c
      · simp [hx]
      · simp [hx]

theorem splitChar_of_not_mem (c : Char) (l : List Char) (h : c ∉ l) :
    splitChar c l = [l] := by
  induction l with
  | nil => rfl
  | cons x xs ih =>
    have hx : x ≠ c := fun e => h (e ▸ List.mem_cons_self x xs)
    have hxs : c ∉ xs := fun m => h (List.mem_cons_of_mem x m)
    simp [splitChar, ih hxs, if_neg hx]

theorem joinSep_splitChar (c : Char) (l : List Char) :
    joinSep [c] (splitChar c l) = l := by
  induction l with
  | nil => rfl
  | cons x xs ih =>
    cases h : splitChar c xs with
    | nil => exact absurd h (splitChar_ne_nil c xs)
    | cons y ys =>
      rw [h] at ih
      simp only [splitChar, h]
      by_cases hx : x = c
      · subst hx
        simp only [if_pos rfl]
        show [] ++ [x] ++ joinSep [x] (y :: ys) = x :: xs
        simp [ih]
      · simp only [if_neg hx]
        cases ys with
        | nil =>
          show x :: y = x :: xs
          simpa [joinSep] using ih
        | cons z zs =>
          show (x :: y) ++ [c] ++ joinSep [c] (z :: zs) = x :: xs
          have h2 : y ++ [c] ++ joinSep [c] (z :: zs) = xs := ih
          simp only [List.cons_append, List.append_assoc] at h2 ⊢
          simpa using h2

theorem splitChar_map_replace (p : List Char) (h : '/' ∉ p) :
    splitChar '/' (p.map (fun x => if x = '.' then '/' else x)) = splitChar '.' p := by
  induction p with
  | nil => rfl
  | cons x xs ih =>
    have hx : x ≠ '/' := fun e => h (e ▸ List.mem_cons_self x xs)
    have hxs : '/' ∉ xs := fun m => h (List.mem_cons_of_mem x m)
    rw [List.map_cons, splitChar_cons, splitChar_cons, ih hxs]
    cases h' : splitChar '.' xs with
    | nil => exact absurd h' (splitChar_ne_nil _ _)
    | cons y ys =>
      by_cases hd : x = '.'
      · subst hd
        simp
      · simp [hd, hx]

theorem data_append (a b : String) : (a ++ b).data = a.data ++ b.data := rfl

/-! ### Claim C10: tasks with no project or no label get only `+tag` entries -/

/-- C10: for every task whose `project` or `label` is absent, `_timewtags`
returns no hierarchical FQL entries at all: the result is exactly one
`+`-prefixed entry per task tag, and is empty when the task has no tags. -/
theorem C10_timewtags_no_fql (t : Task)
    (h : t.project = none ∨ t.label = none) :
    _timewtags t = t.tags.map (fun tg => "+" ++ tg) ∧
    (t.tags = [] → _timewtags t = []) := by
  have hfql : __taskfql t = none := by
    rcases h with h | h <;> simp [__taskfql, h, falsy]
  constructor
  · simp [_timewtags, hfql]
  · intro ht
    simp [_timewtags, hfql, ht]

/-- Witness for C10 at a concrete input. -/
theorem C10_timewtags_no_fql_witness :
    _timewtags ⟨3, "u", none, some "lbl", "", ["urgent"], none, none⟩
      = ["+urgent"] :=
  (C10_timewtags_no_fql ⟨3, "u", none, some "lbl", "", ["urgent"], none, none⟩
    (Or.inl rfl)).1

/-! ### Claim C2: shape of the synchronization tag set -/

/-- Example task of the claim: project `work.infra`, label `deploy`,
tags `urgent`. -/
def exTask : Task :=
  { id := 5, uuid := "11111111-1111-1111-1111-111111111111",
    project := some "work.infra", label := some "deploy",
    description := "", tags := ["urgent"], start := none, tend := none }

/-- Counterexample to C2 as stated: the FQL `work/infra/deploy` has `k = 3`
slash-separated segments, the tag set is exactly the claim's example set,
but it has `3` hierarchical entries (`3 + 1` total with the one `+` entry),
not the claimed `k + 1 = 4` hierarchical entries (`5` total). -/
theorem C2_counterexample :
    __taskfql exTask = some "work/infra/deploy" ∧
    (pySplit '/' "work/infra/deploy").length = 3 ∧
    exTask.tags.length = 1 ∧
    _timewtags exTask = ["work/", "work/infra/", "work/infra/deploy", "+urgent"] ∧
    ¬ ((_timewtags exTask).length = (3 + 1) + 1) := by
  refine ⟨by decide, by decide, by decide, by decide, by decide⟩

/-- C2 amended: when a task's FQL has `k` slash-separated segments, the
derived sync tag list is the `k` hierarchical entries (the `k - 1` proper
prefixes, each written with a trailing `/`, then the full FQL with no
trailing slash) followed by exactly one `+`-prefixed entry per task tag, so
its total length is `k + |tags|` (not `k + 1 + |tags|`). -/
theorem C2_timewtags_shape (t : Task) (fql : String)
    (h : __taskfql t = some fql) (hne : fql ≠ "") :
    _timewtags t
      = (List.range (pySplit '/' fql).length).map
          (fun i => pyJoin "/" ((pySplit '/' fql).take (i + 1))
            ++ (if i + 1 < (pySplit '/' fql).length then "/" else ""))
        ++ t.tags.map (fun tg => "+" ++ tg) ∧
    (_timewtags t).length = (pySplit '/' fql).length + t.tags.length := by
  constructor
  · simp [_timewtags, h, hne]
  · simp [_timewtags, h, hne]

/-- Witness for C2 amended at the claim's example task. -/
theorem C2_timewtags_shape_witness :
    (_timewtags exTask).length = (pySplit '/' "work/infra/deploy").length
      + exTask.tags.length :=
  (C2_timewtags_shape exTask "work/infra/deploy" (by decide) (by decide)).2

/-! ### Claim C4: FQL derivation and round-trip -/

/-- Counterexample to C4 as stated: (i) a task whose project is present but
empty has no FQL although neither field is absent, so "absent iff project
or label absent" fails; (ii) with a label containing `/` the round-trip
fails: the last `/`-segment of the FQL is not the label. -/
theorem C4_counterexample :
    (Task.project ⟨1, "u", some "", some "x", "", [], none, none⟩ ≠ none ∧
     Task.label ⟨1, "u", some "", some "x", "", [], none, none⟩ ≠ none ∧
     __taskfql ⟨1, "u", some "", some "x", "", [], none, none⟩ = none) ∧
    (__taskfql ⟨1, "u", some "p", some "a/b", "", [], none, none⟩ = some "p/a/b" ∧
     (pySplit '/' "p/a/b").getLast? = some "b" ∧
     Task.label ⟨1, "u", some "p", some "a/b", "", [], none, none⟩ = some "a/b" ∧
     ("b" : String) ≠ "a/b") := by
  refine ⟨⟨by decide, by decide, by decide⟩, ⟨by decide, by decide, by decide, by decide⟩⟩

/-- C4 amended: `__taskfql` is `none` iff the project or the label is absent
or empty; otherwise it is the project with `.` replaced by `/`, then `/`,
then the label; and provided neither project nor label contains `/`, it
round-trips: the last `/`-segment of the FQL is the label and the remaining
segments joined with `.` are the project. -/
theorem C4_fql_roundtrip :
    (∀ t : Task, __taskfql t = none ↔ (falsy t.project = true ∨ falsy t.label = true)) ∧
    (∀ (t : Task) (p l : String), t.project = some p → t.label = some l →
       p ≠ "" → l ≠ "" →
       __taskfql t = some (pyReplaceChar '.' '/' p ++ "/" ++ l) ∧
       ('/' ∉ p.data → '/' ∉ l.data →
          (pySplit '/' (pyReplaceChar '.' '/' p ++ "/" ++ l)).getLast? = some l ∧
          pyJoin "." (pySplit '/' (pyReplaceChar '.' '/' p ++ "/" ++ l)).dropLast = p)) := by
  constructor
  · intro t
    constructor
    · intro h
      by_contra hc
      push_neg at hc
      simp only [__taskfql] at h
      rw [if_neg] at h
      · exact Option.some_ne_none _ h
      · simp only [Bool.or_eq_true, not_or]
        exact ⟨by simp [hc.1], by simp [hc.2]⟩
    · intro h
      have : falsy t.project || falsy t.label := by
        rcases h with h | h <;> simp [h]
      simp [__taskfql, this]
  · intro t p l hp hl hpne hlne
    have hfp : falsy (some p) = false := by simp [falsy, hpne]
    have hfl : falsy (some l) = false := by simp [falsy, hlne]
    refine ⟨by simp [__taskfql, hp, hl, hfp, hfl], ?_⟩
    intro hps hls
    have hdata : (pyReplaceChar '.' '/' p ++ "/" ++ l).data
        = (p.data.map (fun x => if x = '.' then '/' else x)) ++ '/' :: l.data := by
      simp [data_append, pyReplaceChar]
    have hsplit : splitChar '/' ((pyReplaceChar '.' '/' p ++ "/" ++ l).data)
        = splitChar '.' p.data ++ [l.data] := by
      rw [hdata, splitChar_append_sep, splitChar_map_replace p.data hps,
        splitChar_of_not_mem '/' l.data hls]
    have hps' : pySplit '/' (pyReplaceChar '.' '/' p ++ "/" ++ l)
        = (splitChar '.' p.data).map (fun a => (⟨a⟩ : String)) ++ [l] := by
      unfold pySplit
      rw [hsplit, List.map_append]
      rfl
    constructor
    · rw [hps', List.getLast?_concat]
    · rw [hps']
      rw [show ((splitChar '.' p.data).map (fun a => (⟨a⟩ : String)) ++ [l]).dropLast
          = (splitChar '.' p.data).map (fun a => (⟨a⟩ : String)) from by simp]
      show String.mk (joinSep ['.']
        (((splitChar '.' p.data).map (fun a => (⟨a⟩ : String))).map String.data)) = p
      rw [List.map_map]
      have hid : ((fun s => String.data s) ∘ fun a => (⟨a⟩ : String)) = id := rfl
      rw [hid, List.map_id, joinSep_splitChar]

/-- Witness for C4 amended at the claim's example project/label pair. -/
theorem C4_fql_roundtrip_witness :
    __taskfql exTask = some (pyReplaceChar '.' '/' "work.infra" ++ "/" ++ "deploy") ∧
    (pySplit '/' (pyReplaceChar '.' '/' "work.infra" ++ "/" ++ "deploy")).getLast?
      = some "deploy" ∧
    pyJoin "." (pySplit '/' (pyReplaceChar '.' '/' "work.infra" ++ "/" ++ "deploy")).dropLast
      = "work.infra" := by
  have h := C4_fql_roundtrip.2 exTask "work.infra" "deploy" rfl rfl
    (by decide) (by decide)
  have h2 := h.2 (by decide) (by decide)
  exact ⟨h.1, h2.1, h2.2⟩

/-! ### Claim C5: tag reconciliation delta (`retimew`) -/

/-- Insert into a uuid-keyed set of tasks (Python `set` of uuid-hashable
tasks), keeping first-insertion order. -/
def setInsert (ts : List Task) (m : Task) : List Task :=
  if ts.any (fun t => t.uuid == m.uuid) then ts else ts ++ [m]

/-- Python `set.update` over a uuid-keyed set of tasks. -/
def setUpdate (ts ms : List Task) : List Task := ms.foldl setInsert ts

/-- Source `retimew` delta computation (task.py lines 858-868): `old` and
`new` are the sync tag sets of the two task states, `both` their union;
`adds` the members of `both` not in `old`, `removes` those not in `new`. -/
def retimewDelta (oldtask newtask : Task) : List String × List String :=
  let old := (_timewtags oldtask).dedup
  let new := (_timewtags newtask).dedup
  let both := old ++ new.filter (fun t => decide (t ∉ old))
  (both.filter (fun t => decide (t ∉ old)), both.filter (fun t => decide (t ∉ new)))

/-- C5: the reconciliation delta is the symmetric-difference decomposition:
`adds` holds exactly the sync tags of the new state absent from the old
state, `removes` exactly those of the old state absent from the new state,
and a tag present in both appears in neither. -/
theorem C5_retimew_delta (oldtask newtask : Task) (t : String) :
    (t ∈ (retimewDelta oldtask newtask).1 ↔
      (t ∈ _timewtags newtask ∧ t ∉ _timewtags oldtask)) ∧
    (t ∈ (retimewDelta oldtask newtask).2 ↔
      (t ∈ _timewtags oldtask ∧ t ∉ _timewtags newtask)) ∧
    (t ∈ _timewtags oldtask → t ∈ _timewtags newtask →
      t ∉ (retimewDelta oldtask newtask).1 ∧ t ∉ (retimewDelta oldtask newtask).2) := by
  simp only [retimewDelta, List.mem_filter, List.mem_append, List.mem_dedup,
    decide_eq_true_eq]
  constructor
  · constructor
    · rintro ⟨h1 | ⟨h1, _⟩, h2⟩
      · exact absurd h1 h2
      · exact ⟨h1, h2⟩
    · rintro ⟨h1, h2⟩
      exact ⟨Or.inr ⟨h1, h2⟩, h2⟩
  constructor
  · constructor
    · rintro ⟨h1 | ⟨h1, h1'⟩, h2⟩
      · exact ⟨h1, h2⟩
      · exact absurd h1 h2
    · rintro ⟨h1, h2⟩
      exact ⟨Or.inl h1, h2⟩
  · intro h1 h2
    constructor
    · rintro ⟨_ | ⟨_, hc⟩, hc'⟩
      · exact hc' h1
      · exact hc h1
    · rintro ⟨_, hc⟩
      exact hc h2

/-- Old and new task states carrying sync tags `+a, +b` resp. `+b, +c`. -/
def oldAB : Task := ⟨1, "u1", none, none, "", ["a", "b"], none, none⟩

/-- New state for the C5 example. -/
def newBC : Task := ⟨1, "u1", none, none, "", ["b", "c"], none, none⟩

/-- Witness for C5 at the claim's example: with old tags `a, b` and new
tags `b, c`, `adds` and `removes` are exactly the one-sided tags, and the
shared tag `b` appears in neither. -/
theorem C5_retimew_delta_witness :
    ("+c" ∈ (retimewDelta oldAB newBC).1 ∧ "+a" ∈ (retimewDelta oldAB newBC).2) ∧
    ("+b" ∉ (retimewDelta oldAB newBC).1 ∧ "+b" ∉ (retimewDelta oldAB newBC).2) := by
  constructor
  · exact ⟨((C5_retimew_delta oldAB newBC "+c").1).2 ⟨by decide, by decide⟩,
      ((C5_retimew_delta oldAB newBC "+a").2.1).2 ⟨by decide, by decide⟩⟩
  · exact (C5_retimew_delta oldAB newBC "+b").2.2 (by decide) (by decide)

/-! ### The FQL grammar and the current-task tracker (`_tasknow`) -/

/-- A character of the source's label grammar `[0-9a-zA-Z-_]`. -/
def isLabelChar (c : Char) : Bool :=
  c.isDigit || c.isLower || c.isUpper || c = '-' || c = '_'

/-- Source `isfql` (task.py lines 272-275): `re.search` of the pattern
`(([0-9a-zA-Z-_]+/)+)([0-9a-zA-Z-_]+)$`.  Since the pattern is anchored
only at the end, a string matches iff its maximal trailing run of label
characters is nonempty and is preceded by a `/` that is itself preceded by
a label character. -/
def isfql (s : String) : Bool :=
  let r := s.data.reverse
  let lastseg := r.takeWhile isLabelChar
  let rest := r.dropWhile isLabelChar
  !lastseg.isEmpty &&
    (match rest with
     | '/' :: c :: _ => isLabelChar c
     | _ => false)

/-- A ledger interval as returned by `timew.export()`: its `id` (1 = the
active or most recent interval), its tag set, and the `end` timestamp
(absent = `none` = active).  The `end` attribute is called `tend` because
`end` is a Lean keyword. -/
structure Interval where
  id : Nat
  tags : List String
  tend : Option String
deriving DecidableEq, Repr

/-- Source `_tasknow` (task.py lines 280-296) as a function of the ledger
export: `next(filter(lambda task: task['id'] == 1, timedata))` is the first
interval with id 1, `next(filter(isfql, curtask.get('tags')))` the first
FQL-shaped tag of that interval; a missing interval, a missing tag list or
no FQL-shaped tag all raise inside the `try` and hit the same `bomb`.
`active` is the absence of the `end` field.  (The `nowcache` memoisation is
invisible for a single evaluation and is not modelled.) -/
def _tasknow (timedata : List Interval) : Except String (String × Bool) :=
  match timedata.find? (fun ival => ival.id == 1) with
  | none => Except.error "task @1 must exist and have an fql tag"
  | some curtask =>
    match (curtask.tags.filter isfql).head? with
    | none => Except.error "task @1 must exist and have an fql tag"
    | some fql => Except.ok (fql, curtask.tend.isNone)

/-- Interval list whose current interval carries two FQL-shaped tags. -/
def tdC6 : List Interval := [⟨1, ["a/b", "c/d"], none⟩]

/-- Counterexample to C6 as stated: the ledger's interval 1 carries two
FQL-shaped tags, yet `_tasknow` does not terminate fatally: it succeeds and
reports the first FQL-shaped tag. -/
theorem C6_counterexample :
    (["a/b", "c/d"].filter isfql).length = 2 ∧
    _tasknow tdC6 = Except.ok ("a/b", true) := ⟨by decide, by rfl⟩

/-- C6 amended: `_tasknow` terminates fatally when no ledger interval has
id 1 or when interval 1 carries no FQL-shaped tag; when interval 1 carries
one or more FQL-shaped tags it reports the first of them (which is
FQL-shaped) and reports active true iff the interval has no end
timestamp. -/
theorem C6_tasknow_behavior (td : List Interval) :
    (td.find? (fun ival => ival.id == 1) = none →
       _tasknow td = Except.error "task @1 must exist and have an fql tag") ∧
    (∀ cur, td.find? (fun ival => ival.id == 1) = some cur →
       (cur.tags.filter isfql = [] →
          _tasknow td = Except.error "task @1 must exist and have an fql tag") ∧
       (∀ f fs, cur.tags.filter isfql = f :: fs →
          _tasknow td = Except.ok (f, cur.tend.isNone) ∧ isfql f = true)) := by
  constructor
  · intro h
    simp [_tasknow, h]
  · intro cur hcur
    constructor
    · intro hf
      simp [_tasknow, hcur, hf]
    · intro f fs hf
      refine ⟨by simp [_tasknow, hcur, hf], ?_⟩
      have hmem : f ∈ cur.tags.filter isfql := by
        rw [hf]; exact List.mem_cons_self f fs
      exact List.of_mem_filter hmem

/-- Interval list with exactly one FQL-shaped tag on interval 1, ended. -/
def tdW6 : List Interval := [⟨1, ["x", "a/b"], some "20240101T000000Z"⟩]

/-- Witness for C6 amended at a concrete ledger export. -/
theorem C6_tasknow_behavior_witness :
    _tasknow tdW6 = Except.ok ("a/b", false) ∧ isfql "a/b" = true := by
  have h := ((C6_tasknow_behavior tdW6).2 ⟨1, ["x", "a/b"], some "20240101T000000Z"⟩
    (by rfl)).2 "a/b" [] (by rfl)
  exact ⟨h.1, h.2⟩

/-! ### The synchronization engine (`_taskdo`, `_taskstop`, `retimew`,
`on_modify_timew`) -/

/-- A mutation issued to the time ledger. -/
inductive LedgerOp
  | stop
  | cont
  | start (tags : List String)
  | tag (timewid : Nat) (tags : List String)
  | untag (timewid : Nat) (tags : List String)
deriving DecidableEq, Repr

/-- The ledger state the engine consults: the current-task tracker's answer
(`_tasknow`'s FQL and active flag for interval 1) and, for `retimew`,
the interval ids returned by `timew.export(tags=[fql])`. -/
structure LedgerView where
  curFql : String
  curActive : Bool
  idsWithTag : Option String → List Nat

/-- Source `_taskdo` (task.py lines 245-268): fatal on an ended task or a
never-started task; when the tracker's FQL equals the task's FQL it is a
no-op if already active ("already" path) and a `timew continue` otherwise;
for a different FQL it starts a new interval with the full sync tag set. -/
def _taskdo (lv : LedgerView) (task : Task) : Except String (List LedgerOp) :=
  if !falsy task.tend then Except.error "cannot proceed on ended task"
  else if falsy task.start then Except.error "do initial start in taskwarrior"
  else
    let rqfql := __taskfql task
    if some lv.curFql = rqfql then
      if lv.curActive then Except.ok []
      else Except.ok [LedgerOp.cont]
    else Except.ok [LedgerOp.start (_timewtags task)]

/-- Source `_taskstop` (task.py lines 537-558): with a task argument (the
on-modify path) it stops the ledger only when the tracker is active and the
task's FQL equals the tracker's FQL, otherwise it only prints
"task already stopped or never started"; with no argument it stops
unconditionally. -/
def _taskstop (lv : LedgerView) (task : Option Task) : List LedgerOp :=
  match task with
  | some task =>
    if lv.curActive && (__taskfql task == some lv.curFql) then [LedgerOp.stop]
    else []
  | none => [LedgerOp.stop]

/-- Source `retimew` (task.py lines 858-877): for every ledger interval
carrying the old task's FQL, apply the nonempty `adds` and `removes`
computed by `retimewDelta` via tag/untag. -/
def retimew (lv : LedgerView) (oldtask newtask : Task) : List LedgerOp :=
  let adds := (retimewDelta oldtask newtask).1
  let removes := (retimewDelta oldtask newtask).2
  ((lv.idsWithTag (__taskfql oldtask)).map (fun timewid =>
    (if adds ≠ [] then [LedgerOp.tag timewid adds] else []) ++
    (if removes ≠ [] then [LedgerOp.untag timewid removes] else []))).flatten

/-- Python `old[k] != new[k]` for a key present in both dicts (the
`changed` delta of the hook, restricted to one key). -/
def changedKey (a b : Option String) : Bool :=
  match a, b with
  | some x, some y => x != y
  | _, _ => false

/-- Python `set(xs) != set(ys)` on tag lists. -/
def listSetEq (a b : List String) : Bool :=
  a.all (fun t => b.contains t) && b.all (fun t => a.contains t)

/-- Source `on_modify_timew` (task.py lines 853-931), as the list of ledger
mutations it issues (or the fatal diagnostic): if `start` is in `new`, run
`_taskdo` when `start` is new, and refuse `start`/`end` edits of an already
started task; otherwise if `start` is in `old`, run `_taskstop(new)` when
`end` newly appeared, and refuse a pause (`end` absent from `new`); finally,
when the sync tag sets of `old` and `new` differ and `old` has a label,
reconcile historical intervals via `retimew`.  Key presence (`'start' in
new`) is `Option.isSome`; the hook re-emits `new` unchanged (not
modelled as it never alters it). -/
def on_modify_timew (lv : LedgerView) (old new : Task) :
    Except String (List LedgerOp) :=
  let phase1 : Except String (List LedgerOp) :=
    if new.start.isSome then
      let doOps : Except String (List LedgerOp) :=
        if !old.start.isSome then _taskdo lv new else Except.ok []
      match doOps with
      | Except.error e => Except.error e
      | Except.ok ops =>
        if (old.start.isSome || old.tend.isSome) &&
           (changedKey old.start new.start || changedKey old.tend new.tend) then
          Except.error "timew propagation not implemented for start, end"
        else Except.ok ops
    else if old.start.isSome then
      let stopOps : List LedgerOp :=
        if new.tend.isSome && !old.tend.isSome then _taskstop lv (some new) else []
      if !new.tend.isSome then
        Except.error "disallowing pause, use timewarrior until done"
      else Except.ok stopOps
    else Except.ok []
  match phase1 with
  | Except.error e => Except.error e
  | Except.ok ops =>
    let ops2 :=
      if !listSetEq (_timewtags old) (_timewtags new) && !falsy old.label then
        retimew lv old new
      else []
    Except.ok (ops ++ ops2)

theorem stop_not_mem_retimew (lv : LedgerView) (o n : Task) :
    LedgerOp.stop ∉ retimew lv o n := by
  intro h
  simp only [retimew, List.mem_flatten, List.mem_map] at h
  obtain ⟨l, ⟨i, _, rfl⟩, hmem⟩ := h
  rcases List.mem_append.mp hmem with h' | h' <;>
    · split at h' <;> simp_all

/-! ### Claim C1: the started→ended transition -/

/-- Ledger view for the C1 counterexample: active on `p/l`. -/
def lvC1 : LedgerView := ⟨"p/l", true, fun _ => []⟩

/-- Old task state of the claim's scenario: `start` = T0. -/
def oldC1 : Task := ⟨4, "u4", some "p", some "l", "", [], some "T0", none⟩

/-- New task state of the claim's scenario: `start` = T0 and `end` = T1. -/
def newC1 : Task := ⟨4, "u4", some "p", some "l", "", [], some "T0", some "T1"⟩

/-- Counterexample to C1 as stated: for `old = start:T0`,
`new = start:T0, end:T1` — the old task has `start`, the new has an `end`
the old lacked, the ledger is active on exactly this task's FQL — the
engine issues no ledger operation at all (the `'start' in new` branch is
taken, so `_taskstop` is never invoked and no stop happens, contrary to the
claim's "the engine stops the active interval"). -/
theorem C1_counterexample :
    oldC1.start = some "T0" ∧ newC1.start = some "T0" ∧
    newC1.tend = some "T1" ∧ oldC1.tend = none ∧
    lvC1.curActive = true ∧ __taskfql newC1 = some lvC1.curFql ∧
    on_modify_timew lvC1 oldC1 newC1 = Except.ok [] :=
  ⟨rfl, rfl, rfl, rfl, rfl, by rfl, by rfl⟩

/-- C1 amended: for every modification event where the old task has `start`,
the new task lacks `start` (as the task store emits on completion) and has
an `end` the old task lacked, the engine invokes the `taskstop`-equivalent,
which issues a ledger stop exactly when the tracker is active and the
tracker's FQL equals the task's FQL; otherwise no stop is issued (only an
informational message is printed). -/
theorem C1_stop_guard (lv : LedgerView) (old new : Task)
    (h1 : old.start.isSome = true) (h2 : new.start = none)
    (h3 : new.tend.isSome = true) (h4 : old.tend = none) :
    ∃ ops, on_modify_timew lv old new = Except.ok ops ∧
      (LedgerOp.stop ∈ ops ↔ (lv.curActive = true ∧ __taskfql new = some lv.curFql)) := by
  obtain ⟨e1, he1⟩ := Option.isSome_iff_exists.mp h3
  refine ⟨_taskstop lv (some new) ++
    (if !listSetEq (_timewtags old) (_timewtags new) && !falsy old.label then
      retimew lv old new else []), ?_, ?_⟩
  · simp [on_modify_timew, h1, h2, he1, h4]
  · have hno : LedgerOp.stop ∉
        (if !listSetEq (_timewtags old) (_timewtags new) && !falsy old.label then
          retimew lv old new else []) := by
      split
      · exact stop_not_mem_retimew lv old new
      · simp
    rw [List.mem_append]
    constructor
    · rintro (hs | hs)
      · by_cases hb : lv.curActive && (__taskfql new == some lv.curFql)
        · rw [Bool.and_eq_true, beq_iff_eq] at hb
          exact hb
        · simp [_taskstop, hb] at hs
      · exact absurd hs hno
    · rintro ⟨ha, hf⟩
      left
      have hb : (lv.curActive && (__taskfql new == some lv.curFql)) = true := by
        rw [Bool.and_eq_true, beq_iff_eq]
        exact ⟨ha, hf⟩
      simp [_taskstop, hb]

/-- Ledger view for the C1 witness. -/
def lvW1 : LedgerView := ⟨"p/l", true, fun _ => []⟩

/-- Old state for the C1 witness: started. -/
def oldW1 : Task := ⟨4, "u4", some "p", some "l", "", [], some "T0", none⟩

/-- New state for the C1 witness: completed (`start` removed, `end` set). -/
def newW1 : Task := ⟨4, "u4", some "p", some "l", "", [], none, some "T1"⟩

/-- Witness for C1 amended at a concrete modification event. -/
theorem C1_stop_guard_witness :
    ∃ ops, on_modify_timew lvW1 oldW1 newW1 = Except.ok ops ∧
      (LedgerOp.stop ∈ ops ↔
        (lvW1.curActive = true ∧ __taskfql newW1 = some lvW1.curFql)) :=
  C1_stop_guard lvW1 oldW1 newW1 rfl rfl rfl rfl

/-! ### Claim C9: idempotence of the started transition -/

/-- Modelled from the spec: the effect of a ledger mutation on the
current-interval tracker (the ledger itself is an external collaborator;
src contains only its call sites).  A stop deactivates; a continue
re-activates the most recent interval; a start activates a new interval
whose FQL is its FQL-shaped tag; interval tagging does not change which
interval is current. -/
def applyOp (lv : LedgerView) : LedgerOp → LedgerView
  | LedgerOp.stop => ⟨lv.curFql, false, lv.idsWithTag⟩
  | LedgerOp.cont => ⟨lv.curFql, true, lv.idsWithTag⟩
  | LedgerOp.start tags =>
    ⟨((tags.filter isfql).head?).getD lv.curFql, true, lv.idsWithTag⟩
  | LedgerOp.tag _ _ => lv
  | LedgerOp.untag _ _ => lv

/-- Folding a list of ledger mutations over the tracker state. -/
def applyOps (lv : LedgerView) (ops : List LedgerOp) : LedgerView :=
  ops.foldl applyOp lv

/-- C9: invoking `_taskdo` while the tracker reports the same FQL already
active takes the "already" no-op path — no ledger operation at all — and
since the ledger is unchanged, a second invocation in a row takes the same
no-op path. -/
theorem C9_taskdo_idempotent (lv : LedgerView) (task : Task)
    (h1 : falsy task.tend = true) (h2 : falsy task.start = false)
    (h3 : __taskfql task = some lv.curFql) (h4 : lv.curActive = true) :
    ∃ ops, _taskdo lv task = Except.ok ops ∧ ops = [] ∧
      _taskdo (applyOps lv ops) task = Except.ok [] := by
  have hmain : _taskdo lv task = Except.ok [] := by
    simp [_taskdo, h1, h2, h3, h4]
  exact ⟨[], hmain, rfl, hmain⟩

/-- Ledger view for the C9 witness: active on `p/l`. -/
def lvW9 : LedgerView := ⟨"p/l", true, fun _ => []⟩

/-- Task for the C9 witness: started, not ended, FQL `p/l`. -/
def taskW9 : Task := ⟨4, "u4", some "p", some "l", "", [], some "T0", none⟩

/-- Witness for C9 at a concrete started task and matching active ledger. -/
theorem C9_taskdo_idempotent_witness :
    ∃ ops, _taskdo lvW9 taskW9 = Except.ok ops ∧ ops = [] ∧
      _taskdo (applyOps lvW9 ops) taskW9 = Except.ok [] :=
  C9_taskdo_idempotent lvW9 taskW9 rfl rfl (by rfl) rfl

/-! ### The task resolver (`_taskget`) -/

/-- A hexadecimal digit (Python's `string.hexdigits`). -/
def isHexChar (c : Char) : Bool :=
  c.isDigit || ('a' ≤ c && c ≤ 'f') || ('A' ≤ c && c ≤ 'F')

/-- Membership in `hexdigits + "-"` (guard of the uuid-initial tier). -/
def inHexSet (c : Char) : Bool := isHexChar c || c == '-'

/-- Membership in lowercase + digits + hyphen + slash (guard of the
label/fql tier). -/
def inLabelSet (c : Char) : Bool :=
  ('a' ≤ c && c ≤ 'z') || c.isDigit || c == '-' || c == '/'

/-- Value of a list of decimal digit characters. -/
def digitsVal (l : List Char) : Nat :=
  l.foldl (fun a c => a * 10 + (c.toNat - '0'.toNat)) 0

/-- Python `int(s)` in base 10 (an optional sign followed by one or more
decimal digits; the whitespace and underscore forms Python also accepts are
not modelled — the claims only quantify over tokens this parser accepts). -/
def pyParseInt (s : String) : Option Int :=
  let core : List Char → Option Nat := fun l =>
    if !l.isEmpty && l.all Char.isDigit then some (digitsVal l) else none
  match s.data with
  | '-' :: cs => (core cs).map (fun n => -(n : Int))
  | '+' :: cs => (core cs).map (fun n => (n : Int))
  | cs => (core cs).map (fun n => (n : Int))

/-- Hex digit character for a value below 16. -/
def hexChar (n : Nat) : Char :=
  if n < 10 then Char.ofNat ('0'.toNat + n) else Char.ofNat ('a'.toNat + (n - 10))

/-- The `k` low hex digits of `n`, most significant first. -/
def natHex : Nat → Nat → List Char
  | 0, _ => []
  | k + 1, n => natHex k (n / 16) ++ [hexChar (n % 16)]

/-- Canonical hyphenated lowercase form of 32 hex digits
(`8-4-4-4-12`), as `str(uuid.UUID(...))` prints. -/
def canonUuid (hex : List Char) : String :=
  let h := hex.map Char.toLower
  ⟨h.take 8 ++ '-' :: ((h.drop 8).take 4) ++ '-' :: ((h.drop 12).take 4) ++
    '-' :: ((h.drop 16).take 4) ++ '-' :: (h.drop 20)⟩

/-- Python `uuid.UUID(s)`: hyphens removed, exactly 32 hex digits required;
result is the canonical hyphenated lowercase form.  (The `urn:`/brace forms
Python also accepts are not modelled.) -/
def pyParseUUID (s : String) : Option String :=
  let hex := s.data.filter (fun c => c != '-')
  if hex.length == 32 && hex.all isHexChar then some (canonUuid hex) else none

/-- Source `failuuid` (task.py lines 130-131): the 128-bit integer
`(1 << FailMask.member) - 1` of the failure-sentinel UUID. -/
def failuuid (mask : Nat) : Nat := (1 <<< mask) - 1

/-- String form of a sentinel UUID integer, as `str(uuid.UUID(int=n))`. -/
def uuidStr (n : Nat) : String := canonUuid (natHex 32 n)

/-- Source `dummy_match` (task.py lines 138-143): the sentinel UUID string
for a match count (`FailMask`: NONE = 124, WRONG = 125, MULTI = 126). -/
def dummy_match (n : Nat) : String :=
  if n = 0 then uuidStr (failuuid 124)
  else if n > 1 then uuidStr (failuuid 126)
  else uuidStr (failuuid 125)

/-- Source `dummy_task` (task.py lines 145-146): the pseudo-task
`id 0, uuid dummy_match(n)`. -/
def dummy_task (n : Nat) : Task :=
  ⟨0, dummy_match n, none, none, "", [], none, none⟩

/-- One store query issued by the resolver (a `taskw.filter(...)` call). -/
inductive Query
  | qid (n : Int)
  | quuid (u : String)
  | quuidpre (s : String)
  | qprojlabel (isExact : Bool) (project label : String)
  | qproject (isExact : Bool) (project : String)
  | qlabel (isExact : Bool) (label : String)
  | qdeschas (s : String)
  | qlabelhas (s : String)
  | qprojecthas (s : String)
deriving DecidableEq, Repr

/-- The resolver's effective option set and store view: the option flags
after the `fromargs` merging (`multi` is `matchall` unless `matchone`), and
the `+tag`/`-tag` filters layered onto every store query.  The `held` and
`blocked` kwargs are not modelled (claims only concern their default
`False`/`None` path, where they add no filter). -/
structure GetEnv where
  store : List Task
  multi : Bool
  idonly : Bool
  zero : Bool
  exact : Bool
  idstrings : Bool
  tagsYes : List String
  tagsNo : List String
deriving Repr

/-- Field-level match of one query against one task (`__is` is equality,
`__has` is substring containment, uuid lookup matches prefixes). -/
def matchesQ : Query → Task → Bool
  | Query.qid n, t => (t.id : Int) == n
  | Query.quuid u, t => t.uuid == u
  | Query.quuidpre s, t => s.data.isPrefixOf t.uuid.data
  | Query.qprojlabel ex p l, t =>
    (match t.project with
     | some pp => if ex then pp == p else pyIn p pp
     | none => false) &&
    (match t.label with
     | some ll => if ex then ll == l else pyIn l ll
     | none => false)
  | Query.qproject ex p, t =>
    (match t.project with
     | some pp => if ex then pp == p else pyIn p pp
     | none => false)
  | Query.qlabel ex l, t =>
    (match t.label with
     | some ll => if ex then ll == l else pyIn l ll
     | none => false)
  | Query.qdeschas s, t => pyIn s t.description
  | Query.qlabelhas s, t =>
    (match t.label with | some ll => pyIn s ll | none => false)
  | Query.qprojecthas s, t =>
    (match t.project with | some pp => pyIn s pp | none => false)

/-- Source `taskfilter` (task.py lines 641-650): a store query plus the
tag inclusion/exclusion filters. -/
def runQuery (env : GetEnv) (q : Query) : List Task :=
  env.store.filter (fun t => matchesQ q t &&
    env.tagsYes.all (fun g => t.tags.contains g) &&
    env.tagsNo.all (fun g => !(t.tags.contains g)))

/-- The resolver's loop state: the uuid-deduplicated result set, the
`firstmatch` cell (`none` = Python `None`; `some none` = the empty list
Python stores when the first `taskupdate` saw no matches; `some (some t)` =
a real first match), and the trace of store queries issued (for stating
which tiers ran). -/
structure GetState where
  tasks : List Task
  firstmatch : Option (Option Task)
  trace : List Query
deriving DecidableEq, Repr

/-- Record one store query in the trace. -/
def addTrace (st : GetState) (q : Query) : GetState :=
  ⟨st.tasks, st.firstmatch, st.trace ++ [q]⟩

/-- Source `taskupdate` (task.py lines 660-669): remember the first match
(`list(matches)[0]` if any, the empty list otherwise) and union the matches
into the uuid-keyed result set. -/
def taskupdate (st : GetState) (ms : List Task) : GetState :=
  ⟨setUpdate st.tasks ms,
   (match st.firstmatch with
    | none => some ms.head?
    | some f => some f),
   st.trace⟩

/-- Outcome of one resolver tier for one token: fall through to the next
tier, continue with the next token, break the token loop, or terminate the
process (`bomb`). -/
inductive TierOut
  | next (st : GetState)
  | cont (st : GetState)
  | brk (st : GetState)
  | fatal (msg : String)
deriving Repr

/-- Source `update_matches` (task.py lines 689-700): a match is fatal if
not unique; a unique match is recorded and the loop continues (`multi`) or
breaks; no match is fatal unless `multi`, skips the token unless
`idstrings`, and otherwise falls through to the next tier. -/
def update_matches (env : GetEnv) (q : Query) (st : GetState) : TierOut :=
  let ms := runQuery env q
  let st := addTrace st q
  if ms ≠ [] then
    if ms.length ≠ 1 then TierOut.fatal "id lookup not unique"
    else
      let st := taskupdate st ms
      if env.multi = true then TierOut.cont st else TierOut.brk st
  else if env.multi = false then TierOut.fatal "failed to resolve id"
  else if env.idstrings = false then TierOut.cont st
  else TierOut.next st

/-- The integer-id tier (task.py lines 766-775): tokens parsing as an
integer query the store by id (the source issues the filter once before
`update_matches` repeats it, hence the double trace entry). -/
def tier_id (env : GetEnv) (tok : String) (st : GetState) : TierOut :=
  match pyParseInt tok with
  | none => TierOut.next st
  | some n => update_matches env (Query.qid n) (addTrace st (Query.qid n))

/-- The uuid tier (task.py lines 777-785). -/
def tier_uuid (env : GetEnv) (tok : String) (st : GetState) : TierOut :=
  match pyParseUUID tok with
  | none => TierOut.next st
  | some u => update_matches env (Query.quuid u) st

/-- The uuid-initial tier (task.py lines 787-794). -/
def tier_uuidpre (env : GetEnv) (tok : String) (st : GetState) : TierOut :=
  if tok.data.all inHexSet then update_matches env (Query.quuidpre tok) st
  else TierOut.next st

/-- Source `runfilters` (task.py lines 652-658): run the filters in order,
recording every nonempty result; stop at the first nonempty result unless
`multi`.  Returns the final state and the last `matches` value. -/
def runfilters (env : GetEnv) : List Query → GetState → List Task → GetState × List Task
  | [], st, last => (st, last)
  | f :: rest, st, _ =>
    let ms := runQuery env f
    let st := addTrace st f
    if ms ≠ [] then
      let st := taskupdate st ms
      if env.multi = false then (st, ms)
      else runfilters env rest st ms
    else runfilters env rest st ms

/-- The filter list of the label/fql tier (task.py lines 799-814): the
project+label filter (plus, when not exact, the dotted-project fallback)
for a token with `/`, the plain label filter otherwise. -/
def tier_label_filters (env : GetEnv) (tok : String) : List Query :=
  if tok.data.contains '/' then
    let segs := pySplit '/' tok
    let project := pyJoin "." segs.dropLast
    let label := (segs.getLast?).getD ""
    [Query.qprojlabel env.exact project label] ++
      (if env.exact = false then [Query.qproject env.exact (pyReplaceChar '/' '.' tok)]
       else [])
  else [Query.qlabel env.exact tok]

/-- The label/fql tier, given its filter list: run the filters and break
when something matched and one match suffices. -/
def tier_label (env : GetEnv) (tok : String) (st : GetState) : TierOut :=
  if tok.data.all inLabelSet then
    let r := runfilters env (tier_label_filters env tok) st []
    if r.2 ≠ [] ∧ env.multi = false then TierOut.brk r.1 else TierOut.next r.1
  else TierOut.next st

/-- The description-tier field loop (task.py lines 825-833): substring
query on description, label, project in order, accumulating into the
`ftasks` set, stopping at the first nonempty result unless `multi`. -/
def desc_loop (env : GetEnv) : List Query → GetState → List Task → GetState × List Task
  | [], st, ftasks => (st, ftasks)
  | q :: rest, st, ftasks =>
    let ms := runQuery env q
    let st := addTrace st q
    if ms ≠ [] then
      let ftasks := setUpdate ftasks ms
      if env.multi = false then (st, ftasks)
      else desc_loop env rest st ftasks
    else desc_loop env rest st ftasks

/-- The description tier (task.py lines 824-837): run the field loop,
record its (possibly empty) accumulated set via `taskupdate`, and break
when the merged result set is nonempty and one match suffices. -/
def tier_desc (env : GetEnv) (tok : String) (st : GetState) : TierOut :=
  let r := desc_loop env
    [Query.qdeschas tok, Query.qlabelhas tok, Query.qprojecthas tok] st []
  let st := taskupdate r.1 r.2
  if st.tasks ≠ [] ∧ env.multi = false then TierOut.brk st else TierOut.cont st

/-- Chain a tier outcome into the next tier: only a fallthrough
(`next`) proceeds. -/
def TierOut.orNext (r : TierOut) (f : GetState → TierOut) : TierOut :=
  match r with
  | TierOut.next st => f st
  | r => r

/-- One iteration of the resolver's token loop (task.py lines 752-837):
the empty-token guard, then the id, uuid, uuid-initial and label/fql tiers
in fallback order, then the `idonly` cutoff, then the description tier. -/
def processToken (env : GetEnv) (tok : String) (st : GetState) : TierOut :=
  if tok = "" then TierOut.fatal "impossible: encountered pruned codepath: empty arg"
  else
    TierOut.orNext (tier_id env tok st) (fun st =>
      TierOut.orNext (tier_uuid env tok st) (fun st =>
        TierOut.orNext (tier_uuidpre env tok st) (fun st =>
          TierOut.orNext (tier_label env tok st) (fun st =>
            if env.idonly then
              (if env.multi then TierOut.cont st else TierOut.brk st)
            else tier_desc env tok st))))

/-- The resolver's token loop (task.py line 752 with the
`if ran and not multi: break` check at the top of each later iteration):
a fatal tier terminates the run, a break ends the loop, and after any
completed token the loop ends unless `multi`. -/
def processTokens (env : GetEnv) : List String → GetState → Except String GetState
  | [], st => Except.ok st
  | tok :: rest, st =>
    match processToken env tok st with
    | TierOut.fatal m => Except.error m
    | TierOut.brk st => Except.ok st
    | TierOut.next st => Except.ok st
    | TierOut.cont st =>
      if env.multi = false then Except.ok st else processTokens env rest st

/-- Source lines 732-739: split the raw arguments into `+`-prefixed tag
inclusions, `-`-prefixed tag exclusions, and the positional tokens. -/
def partitionTagArgs (rawArgs : List String) :
    List String × List String × List String :=
  rawArgs.foldl (fun acc arg =>
    match arg.data with
    | '+' :: restc => (acc.1 ++ [⟨restc⟩], acc.2.1, acc.2.2)
    | '-' :: restc => (acc.1, acc.2.1 ++ [⟨restc⟩], acc.2.2)
    | _ => (acc.1, acc.2.1, acc.2.2 ++ [arg])) ([], [], [])

/-- The resolver's initial loop state. -/
def initState : GetState := ⟨[], none, []⟩

/-- Source `_taskget` (task.py lines 602-849) up to the final multiplicity
policy: extract tag predicates, default to the current task's FQL when no
token remains (a fatal `_tasknow` propagates), and run the token loop.
The per-invocation cache starts empty, so a single run computes exactly
this (the memoisation is not modelled). -/
def taskgetFull (env : GetEnv) (timedata : List Interval) (rawArgs : List String) :
    Except String GetState :=
  let parts := partitionTagArgs rawArgs
  let env := { env with tagsYes := parts.1, tagsNo := parts.2.1 }
  let taskargs := parts.2.2
  match (if taskargs = [] then (_tasknow timedata).map (fun p => [p.1])
         else Except.ok taskargs) with
  | Except.error e => Except.error e
  | Except.ok toks => processTokens env toks initState

/-- Source lines 839-849: the final multiplicity policy — zero matches
yield the empty list or, under `zero`, the no-match pseudo-task; more than
one match without `multi` narrows to `firstmatch` (which, whenever the
result set is nonempty, is a real task: `taskget_good_state`). -/
def finalize (env : GetEnv) (st : GetState) : List Task :=
  let taskn := st.tasks.length
  if taskn = 0 then
    (if env.zero then [dummy_task 0] else [])
  else if 1 < taskn ∧ env.multi = false then
    match st.firstmatch with
    | some (some t) => [t]
    | _ => []
  else st.tasks

/-- Source `_taskget`, end to end: the token loop followed by the final
multiplicity policy. -/
def _taskget (env : GetEnv) (timedata : List Interval) (rawArgs : List String) :
    Except String (List Task) :=
  (taskgetFull env timedata rawArgs).map (finalize env)

/-! ### Claim C3: integer tokens and the id tier -/

/-- Store for the C3 counterexample: no task has id 5, one task's label
contains the character `5`. -/
def taskA : Task := ⟨7, "aaaaaaaa-aaaa-aaaa-aaaa-aaaaaaaaaaaa", none, some "x5y", "", [], none, none⟩

/-- Options for the C3 counterexample: `multi` and `idstrings` on. -/
def envC3 : GetEnv := ⟨[taskA], true, false, false, false, true, [], []⟩

/-- Counterexample to C3 as stated: the token `5` parses as an integer and
the id lookup matches nothing, yet with the `multi` and `idstrings` flags
the resolver does not skip the token: it proceeds through the uuid-prefix,
label and description tiers (see the trace) and returns the task whose
label merely contains `5`. -/
theorem C3_counterexample :
    pyParseInt "5" = some 5 ∧
    runQuery envC3 (Query.qid 5) = [] ∧
    _taskget envC3 [] ["5"] = Except.ok [taskA] ∧
    taskgetFull envC3 [] ["5"] = Except.ok
      ⟨[taskA], some (some taskA),
       [Query.qid 5, Query.qid 5, Query.quuidpre "5", Query.qlabel false "5",
        Query.qdeschas "5", Query.qlabelhas "5", Query.qprojecthas "5"]⟩ :=
  ⟨rfl, rfl, by rfl, by rfl⟩

/-- C3 amended: for a token that parses as an integer the resolver queries
the store by id alone — more than one id match is always fatal; exactly one
match records it and ends the token (break, or continue to the next token
under `multi`); zero matches is fatal unless `multi`, and under `multi`
without `idstrings` the token is skipped — except that when both `multi`
and `idstrings` are set and the id lookup matched nothing, the token falls
through to the later tiers. -/
theorem C3_integer_tier (env : GetEnv) (tok : String) (st : GetState) (n : Int)
    (hp : pyParseInt tok = some n) :
    (1 < (runQuery env (Query.qid n)).length →
       processToken env tok st = TierOut.fatal "id lookup not unique") ∧
    ((runQuery env (Query.qid n)).length = 1 →
       processToken env tok st =
         (if env.multi then
            TierOut.cont (taskupdate (addTrace (addTrace st (Query.qid n)) (Query.qid n))
              (runQuery env (Query.qid n)))
          else
            TierOut.brk (taskupdate (addTrace (addTrace st (Query.qid n)) (Query.qid n))
              (runQuery env (Query.qid n))))) ∧
    (runQuery env (Query.qid n) = [] → env.multi = false →
       processToken env tok st = TierOut.fatal "failed to resolve id") ∧
    (runQuery env (Query.qid n) = [] → env.multi = true → env.idstrings = false →
       processToken env tok st =
         TierOut.cont (addTrace (addTrace st (Query.qid n)) (Query.qid n))) := by
  have htok : tok ≠ "" := by
    intro h
    rw [h] at hp
    simp [pyParseInt] at hp
  refine ⟨?_, ?_, ?_, ?_⟩
  · intro h
    have hne : runQuery env (Query.qid n) ≠ [] := by
      intro hh
      rw [hh] at h
      simp at h
    have hlen : (runQuery env (Query.qid n)).length ≠ 1 := by omega
    simp [processToken, htok, tier_id, hp, update_matches, TierOut.orNext, hne, hlen]
  · intro h
    have hne : runQuery env (Query.qid n) ≠ [] := by
      intro hh
      rw [hh] at h
      simp at h
    have hlen : ¬ (runQuery env (Query.qid n)).length ≠ 1 := by omega
    by_cases hmu : env.multi = true
    · simp [processToken, htok, tier_id, hp, update_matches, TierOut.orNext, hne, hlen, hmu]
    · rw [Bool.not_eq_true] at hmu
      simp [processToken, htok, tier_id, hp, update_matches, TierOut.orNext, hne, hlen, hmu]
  · intro h hmu
    simp [processToken, htok, tier_id, hp, update_matches, TierOut.orNext, h, hmu]
  · intro h hmu hid
    simp [processToken, htok, tier_id, hp, update_matches, TierOut.orNext, h, hmu, hid]

/-- Store for the C3 witness: one task with id 7. -/
def taskB7 : Task := ⟨7, "bbbbbbbb-bbbb-bbbb-bbbb-bbbbbbbbbbbb", none, some "b", "", [], none, none⟩

/-- Options for the C3 witness: single-match mode. -/
def envW3 : GetEnv := ⟨[taskB7], false, false, false, false, false, [], []⟩

/-- Witness for C3 amended: the token `7` resolves by id alone and breaks
the token loop with the unique id match recorded. -/
theorem C3_integer_tier_witness :
    processToken envW3 "7" initState =
      TierOut.brk (taskupdate (addTrace (addTrace initState (Query.qid 7)) (Query.qid 7))
        (runQuery envW3 (Query.qid 7))) := by
  have h := (C3_integer_tier envW3 "7" initState 7 (by rfl)).2.1 (by rfl)
  exact h

/-! ### Claim C7: zero-match results and the sentinel UUID -/

/-- C7: when the full pipeline yields zero matches, the resolver returns
the empty result if `zero` is off and exactly one pseudo-task carrying the
reserved no-match sentinel UUID if `zero` is on; the no-match sentinel is
distinct from the multiple-match sentinel. -/
theorem C7_zero_match (env : GetEnv) (td : List Interval) (args : List String)
    (st : GetState) (h : taskgetFull env td args = Except.ok st)
    (hz : st.tasks = []) :
    _taskget env td args = Except.ok (if env.zero then [dummy_task 0] else []) ∧
    (dummy_task 0).uuid = dummy_match 0 ∧
    dummy_match 0 ≠ dummy_match 2 := by
  refine ⟨?_, rfl, by decide⟩
  simp [_taskget, h, Except.map, finalize, hz]

/-- Options for the C7 witness: empty store, `zero` on. -/
def envW7 : GetEnv := ⟨[], false, false, true, false, false, [], []⟩

/-- Witness for C7 at a concrete zero-match run. -/
theorem C7_zero_match_witness :
    _taskget envW7 [] ["qz"] = Except.ok (if envW7.zero then [dummy_task 0] else []) ∧
    (dummy_task 0).uuid = dummy_match 0 ∧
    dummy_match 0 ≠ dummy_match 2 :=
  C7_zero_match envW7 [] ["qz"]
    ⟨[], some none,
     [Query.qlabel false "qz", Query.qdeschas "qz", Query.qlabelhas "qz",
      Query.qprojecthas "qz"]⟩ (by rfl) rfl

/-! ### Claim C8: the firstmatch narrowing -/

/-- Invariant: whenever the result set is nonempty, `firstmatch` holds a
real task. -/
def goodState (st : GetState) : Prop :=
  st.tasks ≠ [] → ∃ t, st.firstmatch = some (some t)

/-- Strengthened invariant holding before the description tier runs. -/
def strongState (st : GetState) : Prop :=
  (st.tasks = [] ∧ st.firstmatch = none) ∨ ∃ t, st.firstmatch = some (some t)

/-- The invariant over a tier outcome. -/
def outStrong : TierOut → Prop
  | TierOut.next st => strongState st
  | TierOut.cont st => strongState st
  | TierOut.brk st => strongState st
  | TierOut.fatal _ => True

/-- The weak invariant over a tier outcome. -/
def outGood : TierOut → Prop
  | TierOut.next st => goodState st
  | TierOut.cont st => goodState st
  | TierOut.brk st => goodState st
  | TierOut.fatal _ => True

theorem strong_good (st : GetState) (h : strongState st) : goodState st := by
  rcases h with ⟨h1, _⟩ | ⟨t, ht⟩
  · intro hn
    exact absurd h1 hn
  · intro _
    exact ⟨t, ht⟩

theorem strong_addTrace (st : GetState) (q : Query) (h : strongState st) :
    strongState (addTrace st q) := h

theorem taskupdate_strong (st : GetState) (ms : List Task) (h : strongState st)
    (hm : ms ≠ []) : strongState (taskupdate st ms) := by
  rcases h with ⟨_, h2⟩ | ⟨t, ht⟩
  · right
    cases ms with
    | nil => exact absurd rfl hm
    | cons m ms' => exact ⟨m, by simp [taskupdate, h2]⟩
  · right
    exact ⟨t, by simp [taskupdate, ht]⟩

theorem taskupdate_good (st : GetState) (ms : List Task) (h : strongState st) :
    goodState (taskupdate st ms) := by
  by_cases hm : ms = []
  · subst hm
    intro hn
    rcases h with ⟨h1, _⟩ | ⟨t, ht⟩
    · exact absurd (show (taskupdate st []).tasks = [] by
        simp [taskupdate, setUpdate, h1]) hn
    · exact ⟨t, by simp [taskupdate, ht]⟩
  · exact strong_good _ (taskupdate_strong st ms h hm)

theorem update_matches_outStrong (env : GetEnv) (q : Query) (st : GetState)
    (h : strongState st) : outStrong (update_matches env q st) := by
  unfold update_matches
  by_cases hm : runQuery env q ≠ []
  · rw [if_pos hm]
    by_cases hl : (runQuery env q).length ≠ 1
    · rw [if_pos hl]
      trivial
    · rw [if_neg hl]
      have hst : strongState (taskupdate (addTrace st q) (runQuery env q)) :=
        taskupdate_strong _ _ (strong_addTrace st q h) hm
      by_cases hmu : env.multi = true
      · rw [if_pos hmu]
        exact hst
      · rw [if_neg hmu]
        exact hst
  · rw [if_neg hm]
    by_cases hmu : env.multi = false
    · rw [if_pos hmu]
      trivial
    · rw [if_neg hmu]
      by_cases hid : env.idstrings = false
      · rw [if_pos hid]
        exact strong_addTrace st q h
      · rw [if_neg hid]
        exact strong_addTrace st q h

theorem tier_id_outStrong (env : GetEnv) (tok : String) (st : GetState)
    (h : strongState st) : outStrong (tier_id env tok st) := by
  unfold tier_id
  cases pyParseInt tok with
  | none => exact h
  | some n => exact update_matches_outStrong env (Query.qid n) _ (strong_addTrace st _ h)

theorem tier_uuid_outStrong (env : GetEnv) (tok : String) (st : GetState)
    (h : strongState st) : outStrong (tier_uuid env tok st) := by
  unfold tier_uuid
  cases pyParseUUID tok with
  | none => exact h
  | some u => exact update_matches_outStrong env (Query.quuid u) st h

theorem tier_uuidpre_outStrong (env : GetEnv) (tok : String) (st : GetState)
    (h : strongState st) : outStrong (tier_uuidpre env tok st) := by
  unfold tier_uuidpre
  by_cases hg : tok.data.all inHexSet = true
  · rw [if_pos hg]
    exact update_matches_outStrong env (Query.quuidpre tok) st h
  · rw [if_neg hg]
    exact h

theorem runfilters_strong (env : GetEnv) (fs : List Query) (st : GetState)
    (last : List Task) (h : strongState st) :
    strongState (runfilters env fs st last).1 := by
  induction fs generalizing st last with
  | nil => exact h
  | cons f rest ih =>
    unfold runfilters
    by_cases hm : runQuery env f ≠ []
    · rw [if_pos hm]
      have hst : strongState (taskupdate (addTrace st f) (runQuery env f)) :=
        taskupdate_strong _ _ (strong_addTrace st f h) hm
      by_cases hmu : env.multi = false
      · rw [if_pos hmu]
        exact hst
      · rw [if_neg hmu]
        exact ih _ _ hst
    · rw [if_neg hm]
      exact ih _ _ (strong_addTrace st f h)

theorem tier_label_outStrong (env : GetEnv) (tok : String) (st : GetState)
    (h : strongState st) : outStrong (tier_label env tok st) := by
  unfold tier_label
  by_cases hg : tok.data.all inLabelSet = true
  · rw [if_pos hg]
    have hst := runfilters_strong env (tier_label_filters env tok) st [] h
    by_cases hb : (runfilters env (tier_label_filters env tok) st []).2 ≠ []
        ∧ env.multi = false
    · rw [if_pos hb]
      exact hst
    · rw [if_neg hb]
      exact hst
  · rw [if_neg hg]
    exact h

theorem desc_loop_strong (env : GetEnv) (fs : List Query) (st : GetState)
    (ft : List Task) (h : strongState st) :
    strongState (desc_loop env fs st ft).1 := by
  induction fs generalizing st ft with
  | nil => exact h
  | cons q rest ih =>
    unfold desc_loop
    by_cases hm : runQuery env q ≠ []
    · rw [if_pos hm]
      by_cases hmu : env.multi = false
      · rw [if_pos hmu]
        exact strong_addTrace st q h
      · rw [if_neg hmu]
        exact ih _ _ (strong_addTrace st q h)
    · rw [if_neg hm]
      exact ih _ _ (strong_addTrace st q h)

theorem tier_desc_outGood (env : GetEnv) (tok : String) (st : GetState)
    (h : strongState st) : outGood (tier_desc env tok st) := by
  unfold tier_desc
  have hst := desc_loop_strong env
    [Query.qdeschas tok, Query.qlabelhas tok, Query.qprojecthas tok] st [] h
  have hgd := taskupdate_good _ (desc_loop env
    [Query.qdeschas tok, Query.qlabelhas tok, Query.qprojecthas tok] st []).2 hst
  by_cases hb : (taskupdate (desc_loop env
      [Query.qdeschas tok, Query.qlabelhas tok, Query.qprojecthas tok] st []).1
      (desc_loop env
      [Query.qdeschas tok, Query.qlabelhas tok, Query.qprojecthas tok] st []).2).tasks
        ≠ [] ∧ env.multi = false
  · rw [if_pos hb]
    exact hgd
  · rw [if_neg hb]
    exact hgd

theorem processToken_outGood (env : GetEnv) (tok : String) (st : GetState)
    (h : strongState st) : outGood (processToken env tok st) := by
  unfold processToken
  by_cases htok : tok = ""
  · rw [if_pos htok]
    trivial
  · rw [if_neg htok]
    have h1 := tier_id_outStrong env tok st h
    cases e1 : tier_id env tok st with
    | fatal m => simp only [TierOut.orNext]; trivial
    | cont s1 => rw [e1] at h1; simp only [TierOut.orNext]; exact strong_good s1 h1
    | brk s1 => rw [e1] at h1; simp only [TierOut.orNext]; exact strong_good s1 h1
    | next s1 =>
      rw [e1] at h1
      simp only [TierOut.orNext]
      have h2 := tier_uuid_outStrong env tok s1 h1
      cases e2 : tier_uuid env tok s1 with
      | fatal m => trivial
      | cont s2 => rw [e2] at h2; exact strong_good s2 h2
      | brk s2 => rw [e2] at h2; exact strong_good s2 h2
      | next s2 =>
        rw [e2] at h2
        simp only [TierOut.orNext]
        have h3 := tier_uuidpre_outStrong env tok s2 h2
        cases e3 : tier_uuidpre env tok s2 with
        | fatal m => trivial
        | cont s3 => rw [e3] at h3; exact strong_good s3 h3
        | brk s3 => rw [e3] at h3; exact strong_good s3 h3
        | next s3 =>
          rw [e3] at h3
          simp only [TierOut.orNext]
          have h4 := tier_label_outStrong env tok s3 h3
          cases e4 : tier_label env tok s3 with
          | fatal m => trivial
          | cont s4 => rw [e4] at h4; exact strong_good s4 h4
          | brk s4 => rw [e4] at h4; exact strong_good s4 h4
          | next s4 =>
            rw [e4] at h4
            simp only [TierOut.orNext]
            by_cases hio : env.idonly = true
            · rw [if_pos hio]
              by_cases hmu : env.multi = true
              · rw [if_pos hmu]
                exact strong_good s4 h4
              · rw [if_neg hmu]
                exact strong_good s4 h4
            · rw [if_neg hio]
              exact tier_desc_outGood env tok s4 h4

theorem processTokens_good (env : GetEnv) (toks : List String) (st : GetState)
    (h : strongState st) (hm : env.multi = false) :
    ∀ st', processTokens env toks st = Except.ok st' → goodState st' := by
  cases toks with
  | nil =>
    intro st' h'
    simp only [processTokens, Except.ok.injEq] at h'
    subst h'
    exact strong_good st h
  | cons tok rest =>
    intro st' h'
    unfold processTokens at h'
    have hg := processToken_outGood env tok st h
    cases e : processToken env tok st with
    | fatal m =>
      rw [e] at h'
      simp at h'
    | brk s =>
      rw [e] at h'
      simp only [Except.ok.injEq] at h'
      subst h'
      rw [e] at hg
      exact hg
    | next s =>
      rw [e] at h'
      simp only [Except.ok.injEq] at h'
      subst h'
      rw [e] at hg
      exact hg
    | cont s =>
      rw [e] at h'
      have h2 : s = st' := by simpa [hm] using h'
      subst h2
      rw [e] at hg
      exact hg

/-- The resolver's loop always yields a state whose nonempty result set
comes with a real `firstmatch` (single-match mode). -/
theorem taskget_good_state (env : GetEnv) (td : List Interval)
    (args : List String) (st : GetState) (hm : env.multi = false)
    (h : taskgetFull env td args = Except.ok st) : goodState st := by
  simp only [taskgetFull] at h
  cases hx : (if (partitionTagArgs args).2.2 = []
      then Except.map (fun p => [p.1]) (_tasknow td)
      else Except.ok (partitionTagArgs args).2.2) with
  | error e =>
    rw [hx] at h
    simp at h
  | ok toks =>
    rw [hx] at h
    exact processTokens_good
      { store := env.store, multi := env.multi, idonly := env.idonly,
        zero := env.zero, exact := env.exact, idstrings := env.idstrings,
        tagsYes := (partitionTagArgs args).1, tagsNo := (partitionTagArgs args).2.1 }
      toks initState (Or.inl ⟨rfl, rfl⟩) hm st h

/-- C8: when the merged, uuid-deduplicated result set has more than one
task and `multi` is off, the resolver neither fails nor returns the whole
set: it returns exactly the single first-found match (`firstmatch`, a real
task). -/
theorem C8_firstmatch_narrowing (env : GetEnv) (td : List Interval)
    (args : List String) (st : GetState) (hm : env.multi = false)
    (h : taskgetFull env td args = Except.ok st) (hn : 1 < st.tasks.length) :
    ∃ t, st.firstmatch = some (some t) ∧ _taskget env td args = Except.ok [t] := by
  have hne : st.tasks ≠ [] := by
    intro hh
    rw [hh] at hn
    simp at hn
  obtain ⟨t, ht⟩ := taskget_good_state env td args st hm h hne
  refine ⟨t, ht, ?_⟩
  have h0 : ¬ st.tasks.length = 0 := by omega
  simp [_taskget, h, Except.map, finalize, ht, h0, hn, hm]

/-- First task of the C8 witness store. -/
def tA8 : Task := ⟨1, "11111111-1111-1111-1111-111111111111", none, some "azz", "", [], none, none⟩

/-- Second task of the C8 witness store. -/
def tB8 : Task := ⟨2, "22222222-2222-2222-2222-222222222222", none, some "bzz", "", [], none, none⟩

/-- Options for the C8 witness: two label matches, single-match mode. -/
def envW8 : GetEnv := ⟨[tA8, tB8], false, false, false, false, false, [], []⟩

/-- Witness for C8: the token `zz` matches two tasks by label substring;
the resolver returns exactly the first. -/
theorem C8_firstmatch_narrowing_witness :
    ∃ t, GetState.firstmatch ⟨[tA8, tB8], some (some tA8), [Query.qlabel false "zz"]⟩
        = some (some t) ∧
      _taskget envW8 [] ["zz"] = Except.ok [t] :=
  C8_firstmatch_narrowing envW8 [] ["zz"]
    ⟨[tA8, tB8], some (some tA8), [Query.qlabel false "zz"]⟩ rfl (by rfl) (by decide)

end Taskwtools
